import Mathlib

/-! Formal model of the PlayMeow reinforcement-learning core: the simulation
environment of `playmeow/simulation.py` and the agent of
`playmeow/reinforcement.py` together with the episode loop of
`playmeow/trainer.py`.  Python floats are modelled as real numbers, counters
as naturals.  Every random draw the Python code takes from numpy is supplied
explicitly through an oracle argument, so each modelled operation is a
deterministic function of state, action and the drawn values; the theorems
quantify over the oracles, which covers every outcome the random generator can
produce. -/

namespace PlayMeow

/-- Lines 63-81 of reinforcement.py, `add_experience`: append the experience to
the replay buffer and, when the buffer length then exceeds
`replay_buffer_size`, drop the oldest entry (Python `list.pop(0)`, i.e.
`List.tail`). -/
def add_experience {α : Type*} (replay_buffer_size : ℕ) (replay_buffer : List α)
    (experience : α) : List α :=
  let buffer := replay_buffer ++ [experience]
  if replay_buffer_size < buffer.length then buffer.tail else buffer

/-- Lines 105-124 of trainer.py: one episode of the `train_reinforcement`
loop, abstracted to what decides target-model updates.  `dones` lists the
`done` flag the environment returns at each iteration of the `while not done`
loop; the body runs once per entry, up to and including the first `true`.  The
result counts the calls to `update_target_model`: the test
`episode % 10 == 0` sits inside the while loop (line 119), so it is evaluated
once per environment step of the episode. -/
def episode_target_updates (episode : ℕ) : List Bool → ℕ
  | [] => 0
  | done :: rest =>
      let here := if episode % 10 = 0 then 1 else 0
      if done then here else here + episode_target_updates episode rest

/-- Number of iterations the `while not done` loop of trainer.py lines 105-124
makes when the environment returns the `done` flags `dones` in order. -/
def steps_run : List Bool → ℕ
  | [] => 0
  | done :: rest => if done then 1 else 1 + steps_run rest

noncomputable section

/-- Value of numpy `np.max` on a vector; the Python call site
(reinforcement.py line 120) only ever passes the target model's output row,
which has dimension 2, so the empty case is never reached. -/
def npMax : List ℝ → ℝ
  | [] => 0
  | x :: xs => xs.foldl max x

/-- Lines 115-120 of reinforcement.py: the body of the target loop for one
sampled transition.  `target_q[i] = r` assigns a scalar to the whole row
`target_q[i]` (numpy broadcast over the output dimension), so every entry of
the row becomes the scalar target. -/
def targetRow (gamma : ℝ) (current_row next_row : List ℝ) (reward : ℝ)
    (done : Bool) : List ℝ :=
  if done then current_row.map fun _ => reward
  else current_row.map fun _ => reward + gamma * npMax next_row

/-- Lines 113-120 of reinforcement.py: `target_q = current_q.copy()` followed
by the row-update loop over the batch, expressed as one simultaneous pass over
the per-transition data. -/
def trainTargets (gamma : ℝ) :
    List (List ℝ) → List (List ℝ) → List ℝ → List Bool → List (List ℝ)
  | c :: cq, n :: nq, r :: rs, d :: ds =>
      targetRow gamma c n r d :: trainTargets gamma cq nq rs ds
  | _, _, _, _ => []

/-- Follows the spec's words for the target update: the bootstrapped scalar
replaces exactly one entry of the transition's target row, and every other
output dimension keeps the online model's current prediction. -/
def replaces_only_one_entry (current_row target_row : List ℝ) (t : ℝ) : Prop :=
  ∃ k < current_row.length, target_row.getD k 0 = t ∧
    ∀ j < current_row.length, j ≠ k → target_row.getD j 0 = current_row.getD j 0

/-- Opaque function-approximator contract used by `ReinforcementLearning`:
`predict` maps one state to the model's output vector (dimension 2 in this
repository), and `train_step` is one keras `train_on_batch` gradient step,
returning the updated model and the scalar loss. -/
structure ModelOps (M S : Type) where
  predict : M → S → List ℝ
  train_step : M → List S → List (List ℝ) → M × ℝ

/-- Fields of reinforcement.py's `ReinforcementLearning` object
(lines 7-22). -/
structure RLState (M S A : Type) where
  base_model : M
  target_model : M
  gamma : ℝ
  replay_buffer : List (S × A × ℝ × S × Bool)
  replay_buffer_size : ℕ

/-- Lines 83-125 of reinforcement.py, `train_on_batch`.  `sample` is the
oracle for `np.random.choice(len(buffer), batch_size, replace=False)`, the
drawn indices.  When the buffer holds fewer than `batch_size` experiences the
method returns `None` (modelled as `none`) and performs no update; otherwise
it builds the bootstrapped targets and takes one gradient step.  The `actions`
array the Python code also extracts (line 101) is never used. -/
def train_on_batch {M S A : Type} [Inhabited S] [Inhabited A]
    (ops : ModelOps M S) (rl : RLState M S A) (batch_size : ℕ)
    (sample : List ℕ) : Option ℝ × RLState M S A :=
  if rl.replay_buffer.length < batch_size then (none, rl)
  else
    let batch := sample.map fun i => rl.replay_buffer.getD i default
    let states := batch.map fun e => e.1
    let rewards := batch.map fun e => e.2.2.1
    let next_states := batch.map fun e => e.2.2.2.1
    let dones := batch.map fun e => e.2.2.2.2
    let current_q := states.map (ops.predict rl.base_model)
    let next_q := next_states.map (ops.predict rl.target_model)
    let target_q := trainTargets rl.gamma current_q next_q rewards dones
    let trained := ops.train_step rl.base_model states target_q
    (some trained.2, { rl with base_model := trained.1 })

/-- Elementwise soft update of one weight tensor: the numpy broadcast of
`tau * weights[i] + (1 - tau) * target_weights[i]`, a tensor being modelled as
the list of its scalar parameters. -/
def tensor_soft_update (tau : ℝ) (w t : List ℝ) : List ℝ :=
  List.zipWith (fun wi ti => tau * wi + (1 - tau) * ti) w t

/-- Lines 127-140 of reinforcement.py, `update_target_model`: the loop
`target_weights[i] = tau * weights[i] + (1 - tau) * target_weights[i]` over
the list of weight tensors, both lists having the same shape because the
target model is a clone of the online model. -/
def update_target_model (tau : ℝ) (weights target_weights : List (List ℝ)) :
    List (List ℝ) :=
  List.zipWith (tensor_soft_update tau) weights target_weights

/-- A 2D `(x, z)` vector, modelling the numpy length-2 arrays of
simulation.py. -/
abbrev Vec2 := ℝ × ℝ

/-- Euclidean length of a length-2 array, `np.linalg.norm`. -/
def norm2 (v : Vec2) : ℝ := Real.sqrt (v.1 ^ 2 + v.2 ^ 2)

/-- Value of `np.clip(x, lo, hi)`; numpy clips to `hi` whenever
`lo > hi`. -/
def npClip (x lo hi : ℝ) : ℝ := min (max x lo) hi

/-- Value of `np.arctan2(y, x)`: the argument of the complex number
`x + y*i`. -/
def atan2 (y x : ℝ) : ℝ := Complex.arg ⟨x, y⟩

/-- Normalisation `v / np.linalg.norm(v)` guarded by a positive-norm test.
All three normalisation sites of `_update_cat_behavior` (lines 214-217,
284-285, 293-294) leave the vector unchanged when the norm is zero, and a
real 2-vector of norm zero is the zero vector, which the `else` branch
returns. -/
def normalize2 (v : Vec2) : Vec2 :=
  if 0 < norm2 v then (v.1 / norm2 v, v.2 / norm2 v) else (0, 0)

/-- The `bounds = (min_x, max_x, min_z, max_z)` construction parameter of
PlayMeowSimulation (default `(-2, 2, -2, 2)`). -/
structure Bounds where
  minX : ℝ
  maxX : ℝ
  minZ : ℝ
  maxZ : ℝ

/-- Construction parameters of PlayMeowSimulation (simulation.py
lines 6-20); `cat_speed_range` is split into its two components. -/
structure Config where
  bounds : Bounds
  cat_speed_min : ℝ
  cat_speed_max : ℝ
  engagement_threshold : ℝ

/-- Instance attributes of PlayMeowSimulation (lines 22-31). -/
structure SimState where
  cat_pos : Vec2
  laser_pos : Vec2
  cat_velocity : Vec2
  engagement : Bool
  time_since_engagement : ℕ
  play_duration : ℕ
  cat_interest_level : ℝ
  episode_steps : ℕ
  max_episode_steps : ℕ

/-- The state `__init__` leaves behind (lines 22-31): zero positions and
velocity, no engagement, full interest, `max_episode_steps = 300`. -/
def initState : SimState where
  cat_pos := (0, 0)
  laser_pos := (0, 0)
  cat_velocity := (0, 0)
  engagement := false
  time_since_engagement := 0
  play_duration := 0
  cat_interest_level := 1
  episode_steps := 0
  max_episode_steps := 300

/-- Random draws `reset` takes (lines 41-53): the uniform cat coordinates
(within bounds), the laser angle, uniform in `[0, 2π)`, and the laser
distance, uniform in `[0.5, 1.0]`. -/
structure ResetOracle where
  cat_x : ℝ
  cat_z : ℝ
  angle : ℝ
  distance : ℝ

/-- Lines 34-67, `reset`: randomise the cat position, place the laser at the
drawn angle and distance from the cat clipped into bounds, and reinitialise
the per-episode state.  (`max_episode_steps` is not touched.) -/
def reset (cfg : Config) (s : SimState) (o : ResetOracle) : SimState :=
  let b := cfg.bounds
  let cat_pos : Vec2 := (o.cat_x, o.cat_z)
  let laser_pos : Vec2 :=
    (npClip (cat_pos.1 + o.distance * Real.cos o.angle) b.minX b.maxX,
     npClip (cat_pos.2 + o.distance * Real.sin o.angle) b.minZ b.maxZ)
  { s with
    cat_pos := cat_pos
    laser_pos := laser_pos
    cat_velocity := (0, 0)
    engagement := false
    time_since_engagement := 0
    play_duration := 0
    cat_interest_level := 1
    episode_steps := 0 }

/-- Random draws one call of `_update_cat_behavior` may take
(lines 206-333).  Which draws the code consumes depends on the branch taken;
the oracle supplies a value for every draw site.  Ranges in the source:
`catch_angle` and `wander_angle` uniform in `[0, 2π)`; `catch_speed` and
`base_speed` uniform in `cat_speed_range`; `random_factor` uniform in
`[0.7, 1.0]` or `[0.3, 0.7]` depending on the interest level; `noise`
Gaussian with σ = 0.3; `wander_roll` and `sudden_roll` uniform in `[0, 1)`;
`wander_angle_noise` Gaussian with σ = π/4; `wander_speed` uniform in
`[0, cat_speed_min]`; `impulse` Gaussian with σ = 0.5. -/
structure CatOracle where
  catch_angle : ℝ
  catch_speed : ℝ
  random_factor : ℝ
  noise : Vec2
  base_speed : ℝ
  wander_roll : ℝ
  wander_angle : ℝ
  wander_angle_noise : ℝ
  wander_speed : ℝ
  sudden_roll : ℝ
  impulse : Vec2

/-- Lines 221-222: the cat is within `boundary_margin = 0.25` of the left or
right wall. -/
def near_boundary_x (b : Bounds) (p : Vec2) : Prop :=
  p.1 < b.minX + 0.25 ∨ p.1 > b.maxX - 0.25

/-- Lines 223-224: the cat is within `boundary_margin = 0.25` of the bottom
or top wall. -/
def near_boundary_z (b : Bounds) (p : Vec2) : Prop :=
  p.2 < b.minZ + 0.25 ∨ p.2 > b.maxZ - 0.25

/-- Line 225. -/
def near_boundary (b : Bounds) (p : Vec2) : Prop :=
  near_boundary_x b p ∨ near_boundary_z b p

/-- Line 228: in a corner means near a wall on both axes. -/
def in_corner (b : Bounds) (p : Vec2) : Prop :=
  near_boundary_x b p ∧ near_boundary_z b p

instance (b : Bounds) (p : Vec2) : Decidable (near_boundary_x b p) := by
  unfold near_boundary_x; exact inferInstance

instance (b : Bounds) (p : Vec2) : Decidable (near_boundary_z b p) := by
  unfold near_boundary_z; exact inferInstance

instance (b : Bounds) (p : Vec2) : Decidable (near_boundary b p) := by
  unfold near_boundary; exact inferInstance

instance (b : Bounds) (p : Vec2) : Decidable (in_corner b p) := by
  unfold in_corner; exact inferInstance

/-- Lines 242-260: the boundary-repulsion force accumulated from the four
walls.  The code initialises it to zero and only adds the per-wall terms
inside `if near_boundary`, so away from every wall it stays `(0, 0)`. -/
def boundary_repulsion (b : Bounds) (p : Vec2) : Vec2 :=
  if near_boundary b p then
    let dist_to_left := p.1 - b.minX
    let dist_to_right := b.maxX - p.1
    let dist_to_bottom := p.2 - b.minZ
    let dist_to_top := b.maxZ - p.2
    ((if dist_to_left < 0.25 then 1.0 * (1.0 - dist_to_left / 0.25) else 0) -
       (if dist_to_right < 0.25 then 1.0 * (1.0 - dist_to_right / 0.25) else 0),
     (if dist_to_bottom < 0.25 then 1.0 * (1.0 - dist_to_bottom / 0.25) else 0) -
       (if dist_to_top < 0.25 then 1.0 * (1.0 - dist_to_top / 0.25) else 0))
  else (0, 0)

/-- Lines 240-307: the chase velocity of an interested cat that has not
caught the laser.  `weights` is the triple (repulsion, direction, noise)
chosen at lines 267-281. -/
def chase_velocity (cfg : Config) (s : SimState) (o : CatOracle) : Vec2 :=
  let b := cfg.bounds
  let direction_to_laser :=
    normalize2 (s.laser_pos.1 - s.cat_pos.1, s.laser_pos.2 - s.cat_pos.2)
  let weights : ℝ × ℝ × ℝ :=
    if in_corner b s.cat_pos then (1.5, 0.5, 0.5)
    else if near_boundary b s.cat_pos then (1.0, 0.7, 0.3)
    else (0, o.random_factor, 1 - o.random_factor)
  let repulsion := normalize2 (boundary_repulsion b s.cat_pos)
  let direction := normalize2
    (direction_to_laser.1 * weights.2.1 + o.noise.1 * weights.2.2 +
       repulsion.1 * weights.1,
     direction_to_laser.2 * weights.2.1 + o.noise.2 * weights.2.2 +
       repulsion.2 * weights.1)
  let position_factor : ℝ :=
    if in_corner b s.cat_pos then 0.7
    else if near_boundary b s.cat_pos then 0.8 else 1.0
  let speed := o.base_speed * s.cat_interest_level * position_factor
  (direction.1 * speed, direction.2 * speed)

/-- Lines 309-328: the "not interested" branch.  With probability 0.1 the cat
picks a random low-speed direction, biased toward the play-area centre when
near a wall; otherwise the velocity decays by the factor 0.9. -/
def wander_velocity (cfg : Config) (s : SimState) (o : CatOracle) : Vec2 :=
  let b := cfg.bounds
  if o.wander_roll < 0.1 then
    let angle :=
      if near_boundary b s.cat_pos then
        atan2 ((b.minZ + b.maxZ) / 2 - s.cat_pos.2)
          ((b.minX + b.maxX) / 2 - s.cat_pos.1) + o.wander_angle_noise
      else o.wander_angle
    (Real.cos angle * o.wander_speed, Real.sin angle * o.wander_speed)
  else (s.cat_velocity.1 * 0.9, s.cat_velocity.2 * 0.9)

/-- Lines 230-328: the new cat velocity, before the sudden-impulse check. -/
def cat_velocity_base (cfg : Config) (s : SimState) (o : CatOracle) : Vec2 :=
  let distance_to_laser :=
    norm2 (s.laser_pos.1 - s.cat_pos.1, s.laser_pos.2 - s.cat_pos.2)
  if 0.3 < s.cat_interest_level ∧ distance_to_laser < 1.5 then
    if distance_to_laser < 0.1 then
      (Real.cos o.catch_angle * o.catch_speed,
       Real.sin o.catch_angle * o.catch_speed)
    else chase_velocity cfg s o
  else wander_velocity cfg s o

/-- Lines 330-333: with probability 0.01, and only when not near a boundary,
a Gaussian impulse is added to the velocity. -/
def cat_velocity_updated (cfg : Config) (s : SimState) (o : CatOracle) :
    Vec2 :=
  let v := cat_velocity_base cfg s o
  if o.sudden_roll < 0.01 ∧ ¬ near_boundary cfg.bounds s.cat_pos then
    (v.1 + o.impulse.1, v.2 + o.impulse.2)
  else v

/-- Lines 339-345: one axis of the position clamp — a coordinate that would
exit the play area re-enters with a 0.01 inward offset, and that axis's
velocity becomes inward-pointing with half the magnitude. -/
def bounce_axis (lo hi x v : ℝ) : ℝ × ℝ :=
  if x < lo then (lo + 0.01, |v| * 0.5)
  else if x > hi then (hi - 0.01, -|v| * 0.5)
  else (x, v)

/-- Lines 335-347: integrate the position by one velocity step and clamp both
axes independently. -/
def integrate_cat (b : Bounds) (p v : Vec2) : Vec2 × Vec2 :=
  let x := bounce_axis b.minX b.maxX (p.1 + v.1) v.1
  let z := bounce_axis b.minZ b.maxZ (p.2 + v.2) v.2
  ((x.1, z.1), (x.2, z.2))

/-- Lines 206-347, `_update_cat_behavior`: the new
`(cat_pos, cat_velocity)`. -/
def update_cat_behavior (cfg : Config) (s : SimState) (o : CatOracle) :
    Vec2 × Vec2 :=
  integrate_cat cfg.bounds s.cat_pos (cat_velocity_updated cfg s o)

/-- The four play-area corners in the order the list at lines 164-169 gives
them: bottom-left, top-left, bottom-right, top-right. -/
def corners (b : Bounds) : List Vec2 :=
  [(b.minX, b.minZ), (b.minX, b.maxZ), (b.maxX, b.minZ), (b.maxX, b.maxZ)]

/-- Lines 172-178: walk the corner list and return the penalty of the first
corner closer than 0.35 to the cat (the loop `break`s after one hit), or 0
when no corner is that close. -/
def corner_penalty_loop (p : Vec2) : List Vec2 → ℝ
  | [] => 0
  | c :: rest =>
      let corner_dist := norm2 (p.1 - c.1, p.2 - c.2)
      if corner_dist < 0.35 then 0.1 * (1 - corner_dist / 0.35)
      else corner_penalty_loop p rest

/-- The total amount lines 162-178 subtract from the reward. -/
def corner_penalty (b : Bounds) (p : Vec2) : ℝ :=
  corner_penalty_loop p (corners b)

/-- Auxiliary minimum of a list of reals (the value Python's `min`/numpy
would give on a nonempty list). -/
def listMin : List ℝ → ℝ
  | [] => 0
  | x :: xs => xs.foldl min x

/-- Follows the spec's words for the corner penalty (§4.1 step 8): "if cat's
distance to the nearest of the 4 corners < 0.35, subtract
`0.1 * (1 - corner_dist/0.35)` (apply at most once, nearest corner only)". -/
def corner_penalty_nearest (b : Bounds) (p : Vec2) : ℝ :=
  let dmin := listMin ((corners b).map fun c => norm2 (p.1 - c.1, p.2 - c.2))
  if dmin < 0.35 then 0.1 * (1 - dmin / 0.35) else 0

/-- Lines 128-182 of `step`: the reward, assembled in source order.
`in_prohibited_zone` is the flag line 114 hardcodes to `False`; it is a
parameter here so the penalty branch of lines 180-182 can be stated. -/
def step_reward (cfg : Config)
    (engaged session_complete session_abandoned : Bool)
    (distance_to_cat : ℝ) (cat_pos : Vec2) (in_prohibited_zone : Bool) : ℝ :=
  let b := cfg.bounds
  let r1 : ℝ := if engaged then 0 + 0.1 else 0 - 0.2
  let r2 := if session_complete then r1 + 0.4
            else if session_abandoned then r1 - 0.3 else r1
  let r3 := if 0.2 ≤ distance_to_cat ∧ distance_to_cat ≤ 1.0 then r2 + 0.01
            else r2
  let min_dist_to_boundary :=
    min (min (cat_pos.1 - b.minX) (b.maxX - cat_pos.1))
        (min (cat_pos.2 - b.minZ) (b.maxZ - cat_pos.2))
  let r4 := if min_dist_to_boundary < 0.25 then
              r3 - 0.05 * (1.0 - min_dist_to_boundary / 0.25)
            else r3
  let r5 := r4 - corner_penalty b cat_pos
  if in_prohibited_zone then r5 - 0.1 else r5

/-- The five reward terms of lines 128-178 (engagement, session, proximity,
boundary, corner) without the prohibited-zone branch of lines 180-182: the
reference value stating that the −0.1 zone penalty never contributes. -/
def step_reward_sans_zone (cfg : Config)
    (engaged session_complete session_abandoned : Bool)
    (distance_to_cat : ℝ) (cat_pos : Vec2) : ℝ :=
  let b := cfg.bounds
  let r1 : ℝ := if engaged then 0 + 0.1 else 0 - 0.2
  let r2 := if session_complete then r1 + 0.4
            else if session_abandoned then r1 - 0.3 else r1
  let r3 := if 0.2 ≤ distance_to_cat ∧ distance_to_cat ≤ 1.0 then r2 + 0.01
            else r2
  let min_dist_to_boundary :=
    min (min (cat_pos.1 - b.minX) (b.maxX - cat_pos.1))
        (min (cat_pos.2 - b.minZ) (b.maxZ - cat_pos.2))
  let r4 := if min_dist_to_boundary < 0.25 then
              r3 - 0.05 * (1.0 - min_dist_to_boundary / 0.25)
            else r3
  r4 - corner_penalty b cat_pos

/-- Features of `_get_observation`, lines 349-388. -/
def observation_features (b : Bounds) (s : SimState) : List ℝ :=
  let cat_rel : Vec2 :=
    (s.cat_pos.1 - s.laser_pos.1, s.cat_pos.2 - s.laser_pos.2)
  let distance_to_boundary_x :=
    min (s.laser_pos.1 - b.minX) (b.maxX - s.laser_pos.1)
  let distance_to_boundary_z :=
    min (s.laser_pos.2 - b.minZ) (b.maxZ - s.laser_pos.2)
  let cat_direction := normalize2 s.cat_velocity
  [cat_rel.1, cat_rel.2, s.cat_velocity.1, s.cat_velocity.2,
   norm2 s.cat_velocity, atan2 cat_direction.2 cat_direction.1,
   if s.engagement then 1 else 0,
   (s.time_since_engagement : ℝ) / 100,
   distance_to_boundary_x, distance_to_boundary_z]

/-- Lines 390-394: the feature row tiled over the window of 10 timesteps. -/
def get_observation (b : Bounds) (s : SimState) : List (List ℝ) :=
  List.replicate 10 (observation_features b s)

/-- The `info` map `step` returns (lines 195-202). -/
structure StepInfo where
  distance_to_cat : ℝ
  engagement : Bool
  cat_interest_level : ℝ
  in_prohibited_zone : Bool
  session_complete : Bool
  session_abandoned : Bool

/-- Return value of `step` together with the post-call object state. -/
structure StepResult where
  state : SimState
  observation : List (List ℝ)
  reward : ℝ
  done : Bool
  info : StepInfo

/-- Lines 69-204, `step`.  The laser moves by `action * 0.1` and is clipped
into bounds, the cat policy runs, engagement and interest are updated, the
reward is assembled, and the termination flag is computed.  (The local
`prev_engagement` of line 97 is never used and is omitted; the boundary
distances of lines 119-126 are computed but unused.) -/
def step (cfg : Config) (s : SimState) (action : Vec2) (o : CatOracle) :
    StepResult :=
  let b := cfg.bounds
  let s1 : SimState :=
    { s with
      episode_steps := s.episode_steps + 1
      laser_pos :=
        (npClip (s.laser_pos.1 + action.1 * 0.1) b.minX b.maxX,
         npClip (s.laser_pos.2 + action.2 * 0.1) b.minZ b.maxZ) }
  let cv := update_cat_behavior cfg s1 o
  let s2 : SimState := { s1 with cat_pos := cv.1, cat_velocity := cv.2 }
  let distance_to_cat :=
    norm2 (s2.cat_pos.1 - s2.laser_pos.1, s2.cat_pos.2 - s2.laser_pos.2)
  let engaged : Bool :=
    if distance_to_cat < cfg.engagement_threshold ∧
        0.3 < s2.cat_interest_level then true else false
  let time_since := if engaged then 0 else s2.time_since_engagement + 1
  let interest := if engaged then min 1 (s2.cat_interest_level + 0.05)
                  else max 0 (s2.cat_interest_level - 0.01)
  let play_duration := s2.play_duration + 1
  let in_prohibited_zone : Bool := false
  let session_complete : Bool :=
    if 100 ≤ play_duration ∧ 0.6 < interest then true else false
  let session_abandoned : Bool := if interest < 0.2 then true else false
  let reward := step_reward cfg engaged session_complete session_abandoned
    distance_to_cat s2.cat_pos in_prohibited_zone
  let done : Bool := session_complete || session_abandoned ||
    (if s.max_episode_steps ≤ s1.episode_steps then true else false)
  let s3 : SimState :=
    { s2 with
      engagement := engaged
      time_since_engagement := time_since
      play_duration := play_duration
      cat_interest_level := interest }
  { state := s3
    observation := get_observation b s3
    reward := reward
    done := done
    info :=
      { distance_to_cat := distance_to_cat
        engagement := engaged
        cat_interest_level := interest
        in_prohibited_zone := in_prohibited_zone
        session_complete := session_complete
        session_abandoned := session_abandoned } }

/-- Iterate `step` over a list of (action, draws) pairs, keeping the
environment state. -/
def run_steps (cfg : Config) : SimState → List (Vec2 × CatOracle) → SimState
  | s, [] => s
  | s, (a, o) :: rest => run_steps cfg (step cfg s a o).state rest

/-- States the environment object can be in after at least one `reset`. -/
inductive Reachable (cfg : Config) : SimState → Prop
  | of_reset (s : SimState) (o : ResetOracle) : Reachable cfg (reset cfg s o)
  | of_step (s : SimState) (a : Vec2) (o : CatOracle) :
      Reachable cfg s → Reachable cfg (step cfg s a o).state

/-- Component-wise, inclusive membership in the bounds rectangle. -/
def inBounds (b : Bounds) (p : Vec2) : Prop :=
  b.minX ≤ p.1 ∧ p.1 ≤ b.maxX ∧ b.minZ ≤ p.2 ∧ p.2 ≤ b.maxZ

/-- The default construction parameters: bounds `(-2, 2, -2, 2)`,
`cat_speed_range = (0.1, 0.8)`, `engagement_threshold = 0.3`. -/
def defaultCfg : Config :=
  ⟨⟨-2, 2, -2, 2⟩, 0.1, 0.8, 0.3⟩

/-- A fixed, arbitrary bundle of in-range draws for concrete runs. -/
def idleOracle : CatOracle :=
  ⟨0, 0.1, 0.5, (0, 0), 0.1, 0.5, 0, 0, 0, 0.5, (0, 0)⟩

/-- A degenerate but well-formed play area: the rectangle
`[0, 0.005] × [0, 0.005]`. -/
def narrowCfg : Config :=
  ⟨⟨0, 1/200, 0, 1/200⟩, 0.1, 0.8, 0.3⟩

/-- Reset draws inside the narrow play area: cat at `(0.002, 0.002)`, laser
angle 0, laser distance 0.5. -/
def narrowReset : ResetOracle := ⟨1/500, 1/500, 0, 1/2⟩

/-- Draws making the cat "catch" the laser and dart left at the minimum
speed: catch angle π, catch speed 0.1; the remaining draws are in range and
unused on this branch. -/
def narrowCatch : CatOracle :=
  ⟨Real.pi, 0.1, 0.5, (0, 0), 0.1, 0.5, 0, 0, 0, 0.5, (0, 0)⟩

/-- The state reached by one `reset` of the narrow play area. -/
def narrowState : SimState := reset narrowCfg initState narrowReset

/-- A small play area (`[0, 0.2] × [0, 0.2]`) in which one point can be
within 0.35 of several corners at once. -/
def tinyBounds : Bounds := ⟨0, 1/5, 0, 1/5⟩

end

/-! Theorems about the trainer's target-update cadence (trainer.py). -/

/-- Helper: `add_experience` written as one conditional on the appended
buffer. -/
theorem add_experience_eq {α : Type*} (cap : ℕ) (buf : List α) (e : α) :
    add_experience cap buf e =
      if cap < buf.length + 1 then (buf ++ [e]).tail else buf ++ [e] := by
  unfold add_experience
  simp

/-- Helper: folding `add_experience` into an empty buffer keeps the suffix of
the inputs that fits the capacity. -/
theorem add_experience_foldl {α : Type*} (cap : ℕ) (es : List α) :
    List.foldl (add_experience cap) [] es = es.drop (es.length - cap) := by
  induction es using List.reverseRecOn with
  | nil => simp
  | append_singleton es e ih =>
      rw [List.foldl_append, List.foldl_cons, List.foldl_nil, ih,
        add_experience_eq]
      simp only [List.length_drop, List.length_append, List.length_cons,
        List.length_nil, Nat.zero_add]
      by_cases hcap : es.length < cap
      · rw [if_neg (by omega),
          Nat.sub_eq_zero_of_le (le_of_lt hcap), List.drop_zero,
          Nat.sub_eq_zero_of_le (show es.length + 1 ≤ cap by omega),
          List.drop_zero]
      · push_neg at hcap
        rw [if_pos (by omega)]
        rcases Nat.eq_zero_or_pos cap with hc0 | hcpos
        · subst hc0
          rw [Nat.sub_zero, List.drop_length, List.nil_append, Nat.sub_zero,
            show ([e] : List α).tail = [] from rfl,
            List.drop_eq_nil_of_le (by simp)]
        · rw [← List.drop_one,
            List.drop_append_of_le_length
              (by simp only [List.length_drop]; omega),
            List.drop_drop,
            List.drop_append_of_le_length (by omega),
            show es.length - cap + 1 = es.length + 1 - cap by omega]

/-- C4 (counterexample): in episode 0, whose index is a multiple of 10, an
episode of two environment steps performs the target-model soft update twice
— once per step of the episode — and not once. -/
theorem target_updates_twice_in_episode_zero :
    0 % 10 = 0 ∧ steps_run [false, true] = 2 ∧
      episode_target_updates 0 [false, true] = 2 ∧
      episode_target_updates 0 [false, true] ≠ 1 := by
  decide

/-- C4 (amended): during an episode whose index is a multiple of 10 the
target model is soft-updated once per environment step of the episode (so as
many times as the `while not done` loop iterates), and never during other
episodes: the `episode % 10 == 0` test of trainer.py line 119 sits inside the
step loop. -/
theorem episode_target_updates_eq (episode : ℕ) (dones : List Bool) :
    episode_target_updates episode dones =
      if episode % 10 = 0 then steps_run dones else 0 := by
  induction dones with
  | nil => simp [episode_target_updates, steps_run]
  | cons d rest ih =>
      by_cases h : episode % 10 = 0 <;>
        cases d <;>
          simp [episode_target_updates, steps_run, h, ih, Nat.add_comm]

/-- C6: inserting `capacity + 1` transitions into an empty replay buffer via
`add_experience` leaves exactly `capacity` of them, the oldest one evicted
and the remaining ones in their original insertion order: the final buffer
is the tail of the insertion sequence. -/
theorem replay_buffer_fifo {α : Type*} (cap : ℕ) (es : List α)
    (h : es.length = cap + 1) :
    List.foldl (add_experience cap) [] es = es.tail ∧
      (List.foldl (add_experience cap) [] es).length = cap := by
  have h1 := add_experience_foldl cap es
  rw [h, show cap + 1 - cap = 1 by omega, List.drop_one] at h1
  refine ⟨h1, ?_⟩
  rw [h1, List.length_tail, h]
  omega

/-- C6 (witness): capacity 2, three insertions. -/
theorem replay_buffer_fifo_witness :
    List.foldl (add_experience 2) [] [0, 1, 2] = [0, 1, 2].tail ∧
      (List.foldl (add_experience 2) [] [0, 1, 2]).length = 2 :=
  replay_buffer_fifo 2 [0, 1, 2] rfl

/-- C7: when the replay buffer holds fewer than `batch_size` transitions,
`train_on_batch` returns the explicit no-update result `none` and leaves the
whole agent state — model and replay buffer included — unchanged. -/
theorem train_on_batch_insufficient {M S A : Type} [Inhabited S]
    [Inhabited A] (ops : ModelOps M S) (rl : RLState M S A)
    (batch_size : ℕ) (sample : List ℕ)
    (h : rl.replay_buffer.length < batch_size) :
    train_on_batch ops rl batch_size sample = (none, rl) := by
  unfold train_on_batch
  rw [if_pos h]

/-- C7 (witness): an empty buffer against the default batch size of 32. -/
theorem train_on_batch_insufficient_witness :
    train_on_batch (⟨fun _ _ => [0], fun m _ _ => (m, 0)⟩ : ModelOps Unit Unit)
        (⟨(), (), 0.99, [], 10000⟩ : RLState Unit Unit Unit) 32 [] =
      (none, (⟨(), (), 0.99, [], 10000⟩ : RLState Unit Unit Unit)) :=
  train_on_batch_insufficient _ _ 32 [] (by decide)

/-- C5 (counterexample): for a sampled transition with `done`, reward 1,
online prediction `[10, 20]`, the computed target row is `[1, 1]` — the
scalar target overwrites every output dimension (numpy broadcast of
`target_q[i] = r`), so no output dimension keeps the online model's current
prediction, contradicting the claim that only the bootstrapped entry is
replaced. -/
theorem target_row_overwrites_all_entries :
    targetRow 0.99 [10, 20] [0, 0] 1 true = [1, 1] ∧
      ¬ replaces_only_one_entry [10, 20]
        (targetRow 0.99 [10, 20] [0, 0] 1 true) 1 := by
  have hrow : targetRow 0.99 [10, 20] [0, 0] 1 true = [1, 1] := by
    simp [targetRow]
  refine ⟨hrow, ?_⟩
  rw [hrow]
  rintro ⟨k, hk, -, hother⟩
  simp only [List.length_cons, List.length_nil] at hk
  interval_cases k
  · have h1 := hother 1 (by norm_num) (by norm_num)
    simp [List.getD] at h1
  · have h0 := hother 0 (by norm_num) (by norm_num)
    simp [List.getD] at h0

/-- C5 (amended): for every sampled transition the training target is
`reward` when `done` and `reward + gamma * max(target_model.predict(next))`
otherwise, and this scalar replaces the transition's entire target row
(every output dimension), not just one bootstrapped entry. -/
theorem trainTargets_rows (gamma : ℝ) (cq nq : List (List ℝ)) (rs : List ℝ)
    (ds : List Bool) (i : ℕ) (hi : i < cq.length)
    (hn : nq.length = cq.length) (hr : rs.length = cq.length)
    (hd : ds.length = cq.length) :
    (trainTargets gamma cq nq rs ds).getD i [] =
      (cq.getD i []).map fun _ =>
        if ds.getD i false then rs.getD i 0
        else rs.getD i 0 + gamma * npMax (nq.getD i []) := by
  induction cq generalizing nq rs ds i with
  | nil => simp at hi
  | cons c cq ih =>
      cases nq with
      | nil => simp at hn
      | cons n nq =>
        cases rs with
        | nil => simp at hr
        | cons r rs =>
          cases ds with
          | nil => simp at hd
          | cons d ds =>
            cases i with
            | zero =>
                simp only [trainTargets, List.getD_cons_zero]
                cases d <;> simp [targetRow]
            | succ i =>
                simp only [trainTargets, List.getD_cons_succ]
                exact ih nq rs ds i (by simpa using hi)
                  (by simpa using hn) (by simpa using hr)
                  (by simpa using hd)

/-- C5 (witness): a one-transition batch, not done, γ = 0.99. -/
theorem trainTargets_rows_witness :
    (trainTargets 0.99 [[10, 20]] [[3, 4]] [1] [false]).getD 0 [] =
      ([[(10 : ℝ), 20]].getD 0 []).map fun _ =>
        if [false].getD 0 false then [(1 : ℝ)].getD 0 0
        else [(1 : ℝ)].getD 0 0 + 0.99 * npMax ([[(3 : ℝ), 4]].getD 0 []) :=
  trainTargets_rows 0.99 [[10, 20]] [[3, 4]] [1] [false] 0 (by simp) rfl rfl
    rfl

/-- Helper: the elementwise soft update at `tau = 0` is the identity on the
target tensor. -/
theorem tensor_soft_update_zero (w t : List ℝ) (h : w.length = t.length) :
    tensor_soft_update 0 w t = t := by
  induction w generalizing t with
  | nil =>
      cases t with
      | nil => rfl
      | cons b t => simp at h
  | cons a w ih =>
      cases t with
      | nil => simp at h
      | cons b t =>
          simp only [List.length_cons] at h
          simp only [tensor_soft_update, List.zipWith_cons_cons,
            List.cons.injEq]
          exact ⟨by norm_num, ih t (by omega)⟩

/-- Helper: the elementwise soft update at `tau = 1` copies the online
tensor. -/
theorem tensor_soft_update_one (w t : List ℝ) (h : w.length = t.length) :
    tensor_soft_update 1 w t = w := by
  induction w generalizing t with
  | nil => rfl
  | cons a w ih =>
      cases t with
      | nil => simp at h
      | cons b t =>
          simp only [List.length_cons] at h
          simp only [tensor_soft_update, List.zipWith_cons_cons,
            List.cons.injEq]
          exact ⟨by norm_num, ih t (by omega)⟩

/-- Helper: entrywise description of the elementwise soft update. -/
theorem tensor_soft_update_getD (tau : ℝ) (w t : List ℝ)
    (h : w.length = t.length) (j : ℕ) :
    (tensor_soft_update tau w t).getD j 0 =
      tau * w.getD j 0 + (1 - tau) * t.getD j 0 := by
  induction w generalizing t j with
  | nil =>
      cases t with
      | nil => simp [tensor_soft_update]
      | cons b t => simp at h
  | cons a w ih =>
      cases t with
      | nil => simp at h
      | cons b t =>
          simp only [List.length_cons] at h
          cases j with
          | zero =>
              simp [tensor_soft_update]
          | succ j =>
              simp only [tensor_soft_update, List.zipWith_cons_cons,
                List.getD_cons_succ]
              exact ih t (by omega) j

/-- C8: `update_target_model` sets every target-weight entry to
`tau * online + (1 - tau) * target`; in particular `tau = 0` leaves the
target weights unchanged and `tau = 1` makes them exactly the online
weights.  The shape hypothesis records that the target model is a clone of
the online model (tensor lists of equal shapes). -/
theorem update_target_model_soft (W T : List (List ℝ))
    (hshape : List.Forall₂ (fun w t => w.length = t.length) W T) :
    update_target_model 0 W T = T ∧ update_target_model 1 W T = W ∧
      ∀ (tau : ℝ) (i j : ℕ),
        ((update_target_model tau W T).getD i []).getD j 0 =
          tau * ((W.getD i []).getD j 0) +
            (1 - tau) * ((T.getD i []).getD j 0) := by
  induction hshape with
  | nil =>
      refine ⟨rfl, rfl, fun tau i j => ?_⟩
      simp [update_target_model]
  | @cons w t W T hwt hWT ih =>
      obtain ⟨ih0, ih1, ihg⟩ := ih
      refine ⟨?_, ?_, ?_⟩
      · show update_target_model 0 (w :: W) (t :: T) = t :: T
        simp only [update_target_model, List.zipWith_cons_cons]
        rw [tensor_soft_update_zero w t hwt]
        exact congrArg (t :: ·) ih0
      · show update_target_model 1 (w :: W) (t :: T) = w :: W
        simp only [update_target_model, List.zipWith_cons_cons]
        rw [tensor_soft_update_one w t hwt]
        exact congrArg (w :: ·) ih1
      · intro tau i j
        cases i with
        | zero =>
            simp only [update_target_model, List.zipWith_cons_cons,
              List.getD_cons_zero]
            exact tensor_soft_update_getD tau w t hwt j
        | succ i =>
            simp only [update_target_model, List.zipWith_cons_cons,
              List.getD_cons_succ]
            exact ihg tau i j

/-- C8 (witness): two tensors of sizes 2 and 1. -/
theorem update_target_model_soft_witness :
    update_target_model 0 [[1, 2], [3]] [[4, 5], [6]] = [[4, 5], [6]] ∧
      update_target_model 1 [[1, 2], [3]] [[4, 5], [6]] = [[1, 2], [3]] ∧
      ∀ (tau : ℝ) (i j : ℕ),
        ((update_target_model tau [[1, 2], [3]] [[4, 5], [6]]).getD i
            []).getD j 0 =
          tau * (([[(1 : ℝ), 2], [3]].getD i []).getD j 0) +
            (1 - tau) * (([[(4 : ℝ), 5], [6]].getD i []).getD j 0) :=
  update_target_model_soft [[1, 2], [3]] [[4, 5], [6]]
    (by simp [List.forall₂_cons])

/-! Theorems about the simulation environment (simulation.py). -/

/-- C10: the `info` entry `in_prohibited_zone` is the hardcoded `False` of
line 114, and the returned reward equals the five-term reward without the
prohibited-zone branch — the −0.1 penalty of lines 180-182 never
contributes. -/
theorem no_prohibited_zone_penalty (cfg : Config) (s : SimState) (a : Vec2)
    (o : CatOracle) :
    (step cfg s a o).info.in_prohibited_zone = false ∧
      (step cfg s a o).reward =
        step_reward_sans_zone cfg (step cfg s a o).info.engagement
          (step cfg s a o).info.session_complete
          (step cfg s a o).info.session_abandoned
          (step cfg s a o).info.distance_to_cat
          (step cfg s a o).state.cat_pos :=
  ⟨rfl, rfl⟩

/-- Helper: the interest level after a `step` is the engagement-dependent
clamped update of lines 100-108, for some value of the engagement flag. -/
theorem step_interest_update (cfg : Config) (s : SimState) (a : Vec2)
    (o : CatOracle) :
    ∃ e : Bool, (step cfg s a o).state.cat_interest_level =
      if e then min 1 (s.cat_interest_level + 0.05)
      else max 0 (s.cat_interest_level - 0.01) :=
  ⟨_, rfl⟩

/-- Helper: one `step` keeps the interest level inside `[0, 1]`. -/
theorem interest_mem_step (cfg : Config) (s : SimState) (a : Vec2)
    (o : CatOracle) (h0 : 0 ≤ s.cat_interest_level)
    (h1 : s.cat_interest_level ≤ 1) :
    0 ≤ (step cfg s a o).state.cat_interest_level ∧
      (step cfg s a o).state.cat_interest_level ≤ 1 := by
  obtain ⟨e, he⟩ := step_interest_update cfg s a o
  rw [he]
  cases e
  · exact ⟨le_max_left 0 _, max_le (by norm_num) (by linarith)⟩
  · exact ⟨le_min (by norm_num) (by linarith), min_le_left 1 _⟩

/-- Helper: iterated steps keep the interest level inside `[0, 1]`. -/
theorem interest_mem_run (cfg : Config) (l : List (Vec2 × CatOracle))
    (s : SimState) (h0 : 0 ≤ s.cat_interest_level)
    (h1 : s.cat_interest_level ≤ 1) :
    0 ≤ (run_steps cfg s l).cat_interest_level ∧
      (run_steps cfg s l).cat_interest_level ≤ 1 := by
  induction l generalizing s with
  | nil => exact ⟨h0, h1⟩
  | cons p rest ih =>
      obtain ⟨a, o⟩ := p
      obtain ⟨g0, g1⟩ := interest_mem_step cfg s a o h0 h1
      simp only [run_steps]
      exact ih ((step cfg s a o).state) g0 g1

/-- C2: after a `reset`, for every sequence of steps — whatever the pattern
of engaged and disengaged updates (engagement adds 0.05 capped at 1,
disengagement subtracts 0.01 floored at 0, lines 100-108) — the interest
level stays within `[0, 1]`. -/
theorem interest_level_clamped (cfg : Config) (s : SimState)
    (ro : ResetOracle) (l : List (Vec2 × CatOracle)) :
    0 ≤ (run_steps cfg (reset cfg s ro) l).cat_interest_level ∧
      (run_steps cfg (reset cfg s ro) l).cat_interest_level ≤ 1 :=
  interest_mem_run cfg l (reset cfg s ro) (by norm_num [reset])
    (by norm_num [reset])

/-- Helper: `np.clip` lands inside `[lo, hi]` whenever `lo ≤ hi`. -/
theorem npClip_mem (x lo hi : ℝ) (h : lo ≤ hi) :
    lo ≤ npClip x lo hi ∧ npClip x lo hi ≤ hi := by
  unfold npClip
  exact ⟨le_min (le_max_right x lo) h, min_le_right _ hi⟩

/-- Helper: the bounce clamp of lines 339-345 lands inside `[lo, hi]`
whenever the interval is at least 0.01 wide (it re-enters with a 0.01
offset). -/
theorem bounce_axis_mem (lo hi x v : ℝ) (h : lo + 0.01 ≤ hi) :
    lo ≤ (bounce_axis lo hi x v).1 ∧ (bounce_axis lo hi x v).1 ≤ hi := by
  unfold bounce_axis
  split_ifs with h1 h2 <;> constructor <;> simp <;> linarith

/-- Helper: the cat position a `step` returns is the output of the bounce
clamp applied to some integrated position. -/
theorem step_cat_pos_shape (cfg : Config) (s : SimState) (a : Vec2)
    (o : CatOracle) :
    ∃ p v,
      (step cfg s a o).state.cat_pos = (integrate_cat cfg.bounds p v).1 :=
  ⟨_, _, rfl⟩

/-- Helper: the laser position a `step` returns is the clipped moved
laser. -/
theorem step_laser_pos_shape (cfg : Config) (s : SimState) (a : Vec2)
    (o : CatOracle) :
    (step cfg s a o).state.laser_pos =
      (npClip (s.laser_pos.1 + a.1 * 0.1) cfg.bounds.minX cfg.bounds.maxX,
       npClip (s.laser_pos.2 + a.2 * 0.1) cfg.bounds.minZ cfg.bounds.maxZ) :=
  rfl

/-- C1 (amended): after every `step`, from any state and for every action and
every outcome of the random draws, `cat_pos` and `laser_pos` lie within the
bounds rectangle — provided each side of the rectangle spans at least 0.01,
as the default bounds do.  (The width hypotheses are needed because the
bounce clamp re-enters with a fixed 0.01 inward offset.) -/
theorem step_preserves_bounds (cfg : Config) (s : SimState) (a : Vec2)
    (o : CatOracle) (hx : cfg.bounds.minX + 0.01 ≤ cfg.bounds.maxX)
    (hz : cfg.bounds.minZ + 0.01 ≤ cfg.bounds.maxZ) :
    inBounds cfg.bounds (step cfg s a o).state.cat_pos ∧
      inBounds cfg.bounds (step cfg s a o).state.laser_pos := by
  constructor
  · obtain ⟨p, v, hp⟩ := step_cat_pos_shape cfg s a o
    rw [hp]
    obtain ⟨c1, c2⟩ :=
      bounce_axis_mem cfg.bounds.minX cfg.bounds.maxX (p.1 + v.1) v.1 hx
    obtain ⟨d1, d2⟩ :=
      bounce_axis_mem cfg.bounds.minZ cfg.bounds.maxZ (p.2 + v.2) v.2 hz
    exact ⟨c1, c2, d1, d2⟩
  · rw [step_laser_pos_shape]
    obtain ⟨c1, c2⟩ :=
      npClip_mem (s.laser_pos.1 + a.1 * 0.1) cfg.bounds.minX cfg.bounds.maxX
        (by linarith)
    obtain ⟨d1, d2⟩ :=
      npClip_mem (s.laser_pos.2 + a.2 * 0.1) cfg.bounds.minZ cfg.bounds.maxZ
        (by linarith)
    exact ⟨c1, c2, d1, d2⟩

/-- C1 (witness): the default configuration. -/
theorem step_preserves_bounds_witness :
    inBounds defaultCfg.bounds
        (step defaultCfg initState (0, 0) idleOracle).state.cat_pos ∧
      inBounds defaultCfg.bounds
        (step defaultCfg initState (0, 0) idleOracle).state.laser_pos :=
  step_preserves_bounds defaultCfg initState (0, 0) idleOracle
    (by norm_num [defaultCfg]) (by norm_num [defaultCfg])

/-- Helper: the Bool-valued parts of `done` spelled out (lines 184-189). -/
theorem step_done_eq (cfg : Config) (s : SimState) (a : Vec2)
    (o : CatOracle) :
    (step cfg s a o).done =
      ((if 100 ≤ s.play_duration + 1 ∧
            0.6 < (step cfg s a o).state.cat_interest_level then true
        else false) ||
       (if (step cfg s a o).state.cat_interest_level < 0.2 then true
        else false) ||
       (if s.max_episode_steps ≤ s.episode_steps + 1 then true
        else false)) :=
  rfl

/-- Helper: a step from a young, interested state does not terminate the
episode. -/
theorem step_done_false (cfg : Config) (s : SimState) (a : Vec2)
    (o : CatOracle) (h1 : s.play_duration + 1 < 100)
    (h2 : 0.2 ≤ s.cat_interest_level - 0.01)
    (h3 : s.episode_steps + 1 < s.max_episode_steps) :
    (step cfg s a o).done = false := by
  rw [step_done_eq]
  obtain ⟨e, he⟩ := step_interest_update cfg s a o
  have hint : 0.2 ≤ (step cfg s a o).state.cat_interest_level := by
    rw [he]
    cases e
    · exact le_trans (by linarith) (le_max_right 0 _)
    · exact le_min (by norm_num) (by linarith)
  rw [if_neg (fun hc => absurd hc.1 (by omega)),
    if_neg (by exact fun hc => absurd hc (not_lt.mpr hint)),
    if_neg (by omega)]
  rfl

/-- C3: `step` performs no state-machine guard.  Called on a freshly
constructed environment — before any `reset` — with a zero action, it
silently advances the simulation (the episode step counter becomes 1) and
returns `done = false`, rather than failing with an error. -/
theorem step_before_reset_advances :
    (step defaultCfg initState (0, 0) idleOracle).state.episode_steps = 1 ∧
      (step defaultCfg initState (0, 0) idleOracle).done = false := by
  constructor
  · rfl
  · apply step_done_false <;> norm_num [initState]

/-- Helper: the "caught the laser" branch of lines 231-239. -/
theorem cat_velocity_base_caught (cfg : Config) (s : SimState) (o : CatOracle)
    (h1 : 0.3 < s.cat_interest_level)
    (h2 : norm2 (s.laser_pos.1 - s.cat_pos.1, s.laser_pos.2 - s.cat_pos.2) <
      0.1) :
    cat_velocity_base cfg s o =
      (Real.cos o.catch_angle * o.catch_speed,
       Real.sin o.catch_angle * o.catch_speed) := by
  unfold cat_velocity_base
  dsimp only
  rw [if_pos ⟨h1, lt_trans h2 (by norm_num)⟩, if_pos h2]

/-- Helper: the sudden impulse of lines 330-333 is skipped whenever its roll
fails or the cat is near a wall. -/
theorem cat_velocity_no_impulse (cfg : Config) (s : SimState) (o : CatOracle)
    (h : ¬ (o.sudden_roll < 0.01 ∧ ¬ near_boundary cfg.bounds s.cat_pos)) :
    cat_velocity_updated cfg s o = cat_velocity_base cfg s o := by
  unfold cat_velocity_updated
  dsimp only
  rw [if_neg h]

/-- Helper: `_update_cat_behavior` on the caught branch with no sudden
impulse. -/
theorem update_cat_behavior_caught (cfg : Config) (s : SimState)
    (o : CatOracle) (h1 : 0.3 < s.cat_interest_level)
    (h2 : norm2 (s.laser_pos.1 - s.cat_pos.1, s.laser_pos.2 - s.cat_pos.2) <
      0.1)
    (h3 : ¬ (o.sudden_roll < 0.01 ∧ ¬ near_boundary cfg.bounds s.cat_pos)) :
    update_cat_behavior cfg s o =
      integrate_cat cfg.bounds s.cat_pos
        (Real.cos o.catch_angle * o.catch_speed,
         Real.sin o.catch_angle * o.catch_speed) := by
  unfold update_cat_behavior
  rw [cat_velocity_no_impulse cfg s o h3,
    cat_velocity_base_caught cfg s o h1 h2]

/-- Helper: inside `step`, the cat policy runs on the laser-moved state; this
exposes that state's fields. -/
theorem step_cat_pos_via (cfg : Config) (s : SimState) (a : Vec2)
    (o : CatOracle) :
    ∃ s1 : SimState, s1.cat_pos = s.cat_pos ∧
      s1.cat_interest_level = s.cat_interest_level ∧
      s1.laser_pos =
        (npClip (s.laser_pos.1 + a.1 * 0.1) cfg.bounds.minX cfg.bounds.maxX,
         npClip (s.laser_pos.2 + a.2 * 0.1) cfg.bounds.minZ
           cfg.bounds.maxZ) ∧
      (step cfg s a o).state.cat_pos = (update_cat_behavior cfg s1 o).1 :=
  ⟨{ s with
      episode_steps := s.episode_steps + 1
      laser_pos :=
        (npClip (s.laser_pos.1 + a.1 * 0.1) cfg.bounds.minX cfg.bounds.maxX,
         npClip (s.laser_pos.2 + a.2 * 0.1) cfg.bounds.minZ
           cfg.bounds.maxZ) },
    rfl, rfl, rfl, rfl⟩

/-- C1 (counterexample): in the narrow play area `[0, 0.005] × [0, 0.005]`
the state reached by one `reset` is reachable, yet one `step` with the zero
action and in-range draws (the cat catches the laser and darts left at speed
0.1) leaves `cat_pos` outside the bounds rectangle: the bounce clamp of
line 341 re-enters at `minX + 0.01 = 0.01 > maxX = 0.005`. -/
theorem step_escapes_narrow_bounds :
    Reachable narrowCfg narrowState ∧
      ¬ inBounds narrowCfg.bounds
        (step narrowCfg narrowState (0, 0) narrowCatch).state.cat_pos := by
  have hb : narrowCfg.bounds = ⟨0, 1/200, 0, 1/200⟩ := rfl
  have hcat : narrowState.cat_pos = (1/500, 1/500) := rfl
  have hint : narrowState.cat_interest_level = 1 := rfl
  have hlaser : narrowState.laser_pos = (1/200, 1/500) := by
    show (npClip (1/500 + 1/2 * Real.cos 0) 0 (1/200),
        npClip (1/500 + 1/2 * Real.sin 0) 0 (1/200)) =
      ((1 : ℝ)/200, (1 : ℝ)/500)
    rw [Real.cos_zero, Real.sin_zero]
    unfold npClip
    rw [Prod.mk.injEq]
    constructor <;> norm_num [min_def, max_def]
  refine ⟨Reachable.of_reset initState narrowReset, ?_⟩
  obtain ⟨s1, h1cat, h1int, h1laser, h1step⟩ :=
    step_cat_pos_via narrowCfg narrowState (0, 0) narrowCatch
  have h1laser' : s1.laser_pos = ((1 : ℝ)/200, (1 : ℝ)/500) := by
    rw [h1laser, hlaser]
    norm_num [hb, npClip, min_def, max_def]
  have hdist : norm2 (s1.laser_pos.1 - s1.cat_pos.1,
      s1.laser_pos.2 - s1.cat_pos.2) < 0.1 := by
    rw [h1laser', h1cat, hcat]
    have harg : ((((1 : ℝ)/200, (1 : ℝ)/500).1 - ((1 : ℝ)/500, (1 : ℝ)/500).1,
        ((1 : ℝ)/200, (1 : ℝ)/500).2 - ((1 : ℝ)/500, (1 : ℝ)/500).2) : Vec2) =
        ((3 : ℝ)/1000, 0) := by
      norm_num
    rw [harg]
    unfold norm2
    rw [Real.sqrt_lt' (by norm_num : (0 : ℝ) < 0.1)]
    norm_num
  have hint1 : (0.3 : ℝ) < s1.cat_interest_level := by
    rw [h1int, hint]; norm_num
  have hsud : ¬ (narrowCatch.sudden_roll < 0.01 ∧
      ¬ near_boundary narrowCfg.bounds s1.cat_pos) := by
    rintro ⟨hr, -⟩
    rw [show narrowCatch.sudden_roll = 0.5 from rfl] at hr
    norm_num at hr
  rw [h1step, update_cat_behavior_caught narrowCfg s1 narrowCatch hint1 hdist
    hsud, h1cat, hcat, hb,
    show Real.cos narrowCatch.catch_angle = -1 by
      rw [show narrowCatch.catch_angle = Real.pi from rfl, Real.cos_pi],
    show Real.sin narrowCatch.catch_angle = 0 by
      rw [show narrowCatch.catch_angle = Real.pi from rfl, Real.sin_pi],
    show narrowCatch.catch_speed = (0.1 : ℝ) from rfl]
  norm_num [integrate_cat, bounce_axis, inBounds]

/-- C9 (counterexample): in the play area `[0, 0.2] × [0, 0.2]` with the cat
at `(0.15, 0.05)`, the bottom-left corner (distance `√(1/40) ≈ 0.158`) and
the bottom-right corner (distance `√(1/200) ≈ 0.071`) are both within 0.35;
the loop of lines 172-178 penalises the bottom-left corner because it comes
first in the list, not the nearest one, so the subtracted penalty differs
from the nearest-corner penalty the spec describes. -/
theorem corner_penalty_not_nearest :
    corner_penalty tinyBounds (3/20, 1/20) ≠
      corner_penalty_nearest tinyBounds (3/20, 1/20) := by
  have h40lt : Real.sqrt ((1 : ℝ)/40) < 0.35 := by
    rw [Real.sqrt_lt' (by norm_num)]; norm_num
  have h200lt : Real.sqrt ((1 : ℝ)/200) < 0.35 := by
    rw [Real.sqrt_lt' (by norm_num)]; norm_num
  have m1 : min (Real.sqrt ((1 : ℝ)/40)) (Real.sqrt ((9 : ℝ)/200)) =
      Real.sqrt ((1 : ℝ)/40) :=
    min_eq_left (Real.sqrt_le_sqrt (by norm_num))
  have m2 : min (Real.sqrt ((1 : ℝ)/40)) (Real.sqrt ((1 : ℝ)/200)) =
      Real.sqrt ((1 : ℝ)/200) :=
    min_eq_right (Real.sqrt_le_sqrt (by norm_num))
  have m3 : min (Real.sqrt ((1 : ℝ)/200)) (Real.sqrt ((1 : ℝ)/40)) =
      Real.sqrt ((1 : ℝ)/200) :=
    min_eq_left (Real.sqrt_le_sqrt (by norm_num))
  have hc : corners tinyBounds =
      [((0 : ℝ), (0 : ℝ)), ((0 : ℝ), (1 : ℝ)/5), ((1 : ℝ)/5, (0 : ℝ)),
        ((1 : ℝ)/5, (1 : ℝ)/5)] := rfl
  have d1e : norm2 ((3 : ℝ)/20 - 0, (1 : ℝ)/20 - 0) =
      Real.sqrt ((1 : ℝ)/40) := by
    unfold norm2
    dsimp only
    rw [show ((3 : ℝ)/20 - 0) ^ 2 + ((1 : ℝ)/20 - 0) ^ 2 = (1 : ℝ)/40 by
      norm_num]
  have d2e : norm2 ((3 : ℝ)/20 - 0, (1 : ℝ)/20 - 1/5) =
      Real.sqrt ((9 : ℝ)/200) := by
    unfold norm2
    dsimp only
    rw [show ((3 : ℝ)/20 - 0) ^ 2 + ((1 : ℝ)/20 - 1/5) ^ 2 = (9 : ℝ)/200 by
      norm_num]
  have d3e : norm2 ((3 : ℝ)/20 - 1/5, (1 : ℝ)/20 - 0) =
      Real.sqrt ((1 : ℝ)/200) := by
    unfold norm2
    dsimp only
    rw [show ((3 : ℝ)/20 - 1/5) ^ 2 + ((1 : ℝ)/20 - 0) ^ 2 = (1 : ℝ)/200 by
      norm_num]
  have d4e : norm2 ((3 : ℝ)/20 - 1/5, (1 : ℝ)/20 - 1/5) =
      Real.sqrt ((1 : ℝ)/40) := by
    unfold norm2
    dsimp only
    rw [show ((3 : ℝ)/20 - 1/5) ^ 2 + ((1 : ℝ)/20 - 1/5) ^ 2 = (1 : ℝ)/40 by
      norm_num]
  have hcode : corner_penalty tinyBounds (3/20, 1/20) =
      0.1 * (1 - Real.sqrt ((1 : ℝ)/40) / 0.35) := by
    unfold corner_penalty
    rw [hc]
    dsimp only [corner_penalty_loop]
    rw [d1e, if_pos h40lt]
  have hnear : corner_penalty_nearest tinyBounds (3/20, 1/20) =
      0.1 * (1 - Real.sqrt ((1 : ℝ)/200) / 0.35) := by
    unfold corner_penalty_nearest
    rw [hc]
    dsimp only [List.map, listMin, List.foldl]
    rw [d1e, d2e, d3e, d4e, m1, m2, m3, if_pos h200lt]
  have hsq : Real.sqrt ((1 : ℝ)/200) < Real.sqrt ((1 : ℝ)/40) :=
    Real.sqrt_lt_sqrt (by norm_num) (by norm_num)
  have hdiv : Real.sqrt ((1 : ℝ)/200) / 0.35 < Real.sqrt ((1 : ℝ)/40) / 0.35 :=
    (div_lt_div_iff_of_pos_right (by norm_num)).mpr hsq
  rw [hcode, hnear]
  exact ne_of_lt (by linarith)

/-- Helper: a coordinate difference is at most the Euclidean distance. -/
theorem abs_fst_le_norm2 (v : Vec2) : |v.1| ≤ norm2 v := by
  unfold norm2
  rw [← Real.sqrt_sq_eq_abs]
  exact Real.sqrt_le_sqrt (by nlinarith [sq_nonneg v.2])

/-- Helper: a coordinate difference is at most the Euclidean distance. -/
theorem abs_snd_le_norm2 (v : Vec2) : |v.2| ≤ norm2 v := by
  unfold norm2
  rw [← Real.sqrt_sq_eq_abs]
  exact Real.sqrt_le_sqrt (by nlinarith [sq_nonneg v.1])

/-- Helper: two corners whose x coordinates are at least 0.7 apart cannot
both be within 0.35 of the cat. -/
theorem corner_exclusion_x (p c c' : Vec2) (h : 0.7 ≤ |c.1 - c'.1|)
    (h1 : norm2 (p.1 - c.1, p.2 - c.2) < 0.35)
    (h2 : norm2 (p.1 - c'.1, p.2 - c'.2) < 0.35) : False := by
  have a1 := abs_fst_le_norm2 (p.1 - c.1, p.2 - c.2)
  have a2 := abs_fst_le_norm2 (p.1 - c'.1, p.2 - c'.2)
  have tri : |c.1 - c'.1| ≤ |p.1 - c.1| + |p.1 - c'.1| := by
    have e : c.1 - c'.1 = (p.1 - c'.1) - (p.1 - c.1) := by ring
    rw [e]
    calc |(p.1 - c'.1) - (p.1 - c.1)| ≤ |p.1 - c'.1| + |p.1 - c.1| :=
          abs_sub _ _
      _ = |p.1 - c.1| + |p.1 - c'.1| := by ring
  simp only at a1 a2
  linarith

/-- Helper: two corners whose z coordinates are at least 0.7 apart cannot
both be within 0.35 of the cat. -/
theorem corner_exclusion_z (p c c' : Vec2) (h : 0.7 ≤ |c.2 - c'.2|)
    (h1 : norm2 (p.1 - c.1, p.2 - c.2) < 0.35)
    (h2 : norm2 (p.1 - c'.1, p.2 - c'.2) < 0.35) : False := by
  have a1 := abs_snd_le_norm2 (p.1 - c.1, p.2 - c.2)
  have a2 := abs_snd_le_norm2 (p.1 - c'.1, p.2 - c'.2)
  have tri : |c.2 - c'.2| ≤ |p.2 - c.2| + |p.2 - c'.2| := by
    have e : c.2 - c'.2 = (p.2 - c'.2) - (p.2 - c.2) := by ring
    rw [e]
    calc |(p.2 - c'.2) - (p.2 - c.2)| ≤ |p.2 - c'.2| + |p.2 - c.2| :=
          abs_sub _ _
      _ = |p.2 - c.2| + |p.2 - c'.2| := by ring
  simp only at a1 a2
  linarith

/-- C9 (amended): the loop penalises the first corner in list order within
0.35; whenever both sides of the play area measure at least 0.7 — as the
default bounds do — at most one corner can be within 0.35 of the cat, and
the penalty coincides with the spec's nearest-corner penalty: at most one
penalty of `0.1 * (1 - corner_dist/0.35)`, computed for the nearest (only)
corner within 0.35. -/
theorem corner_penalty_nearest_of_wide (b : Bounds) (p : Vec2)
    (hw : 0.7 ≤ b.maxX - b.minX) (hh : 0.7 ≤ b.maxZ - b.minZ) :
    corner_penalty b p = corner_penalty_nearest b p := by
  have hxgap : 0.7 ≤ |b.minX - b.maxX| := by
    rw [abs_sub_comm, abs_of_nonneg (by linarith)]; linarith
  have hzgap : 0.7 ≤ |b.minZ - b.maxZ| := by
    rw [abs_sub_comm, abs_of_nonneg (by linarith)]; linarith
  unfold corner_penalty corner_penalty_nearest corners
  dsimp only [corner_penalty_loop, List.map, listMin, List.foldl]
  set d1 := norm2 (p.1 - b.minX, p.2 - b.minZ) with hd1
  set d2 := norm2 (p.1 - b.minX, p.2 - b.maxZ) with hd2
  set d3 := norm2 (p.1 - b.maxX, p.2 - b.minZ) with hd3
  set d4 := norm2 (p.1 - b.maxX, p.2 - b.maxZ) with hd4
  by_cases h1 : d1 < 0.35
  · have n2 : ¬ d2 < 0.35 := fun h2 =>
      corner_exclusion_z p (b.minX, b.minZ) (b.minX, b.maxZ) hzgap h1 h2
    have n3 : ¬ d3 < 0.35 := fun h3 =>
      corner_exclusion_x p (b.minX, b.minZ) (b.maxX, b.minZ) hxgap h1 h3
    have n4 : ¬ d4 < 0.35 := fun h4 =>
      corner_exclusion_x p (b.minX, b.minZ) (b.maxX, b.maxZ) hxgap h1 h4
    push_neg at n2 n3 n4
    rw [if_pos h1, min_eq_left (le_of_lt (lt_of_lt_of_le h1 n2)),
      min_eq_left (le_of_lt (lt_of_lt_of_le h1 n3)),
      min_eq_left (le_of_lt (lt_of_lt_of_le h1 n4)), if_pos h1]
  · rw [if_neg h1]
    push_neg at h1
    by_cases h2 : d2 < 0.35
    · have n3 : ¬ d3 < 0.35 := fun h3 =>
        corner_exclusion_x p (b.minX, b.maxZ) (b.maxX, b.minZ) hxgap h2 h3
      have n4 : ¬ d4 < 0.35 := fun h4 =>
        corner_exclusion_x p (b.minX, b.maxZ) (b.maxX, b.maxZ) hxgap h2 h4
      push_neg at n3 n4
      rw [if_pos h2, min_eq_right (le_of_lt (lt_of_lt_of_le h2 h1)),
        min_eq_left (le_of_lt (lt_of_lt_of_le h2 n3)),
        min_eq_left (le_of_lt (lt_of_lt_of_le h2 n4)), if_pos h2]
    · rw [if_neg h2]
      push_neg at h2
      by_cases h3 : d3 < 0.35
      · have n4 : ¬ d4 < 0.35 := fun h4 =>
          corner_exclusion_z p (b.maxX, b.minZ) (b.maxX, b.maxZ) hzgap h3 h4
        push_neg at n4
        rw [if_pos h3,
          min_eq_right (le_min (le_of_lt (lt_of_lt_of_le h3 h1))
            (le_of_lt (lt_of_lt_of_le h3 h2))),
          min_eq_left (le_of_lt (lt_of_lt_of_le h3 n4)), if_pos h3]
      · rw [if_neg h3]
        push_neg at h3
        by_cases h4 : d4 < 0.35
        · rw [if_pos h4,
            min_eq_right (le_min (le_min (le_of_lt (lt_of_lt_of_le h4 h1))
                (le_of_lt (lt_of_lt_of_le h4 h2)))
              (le_of_lt (lt_of_lt_of_le h4 h3))), if_pos h4]
        · rw [if_neg h4]
          push_neg at h4
          rw [if_neg (not_lt.mpr (le_min (le_min (le_min h1 h2) h3) h4))]

/-- C9 (witness): the default play area and the cat at the centre. -/
theorem corner_penalty_nearest_of_wide_witness :
    corner_penalty defaultCfg.bounds (0, 0) =
      corner_penalty_nearest defaultCfg.bounds (0, 0) :=
  corner_penalty_nearest_of_wide defaultCfg.bounds (0, 0)
    (by norm_num [defaultCfg]) (by norm_num [defaultCfg])

end PlayMeow
